import Mathlib

/-!
Verification development for the Accountant-Assist expense pipeline
(`accountant.py`): the statement parser (`bersihkan_nominal`,
`extract_transaksi_harian_jago`), the batch aggregator
(`pdfs_to_dataframe`), the statistical routine-expense filter
(`filter_pengeluaran_rutin`) and the balance forecaster
(`prediksi_harian`).

Modelling conventions.
* Monetary values are embedded as rationals (`ℚ`): the Python floats are
  treated in exact real arithmetic, which is also the arithmetic the
  specification states its bounds and percentiles in.
* A result of Python `float(...)` is a `PyFloat`: a finite rational, one
  of the two infinities, or NaN, since `float` also accepts the strings
  "inf", "infinity" and "nan" (case-insensitively).  The numeric grammar
  is modelled by `parseDecimal` (digits with at most one dot); exponent
  and underscore forms of Python number literals are treated as parse
  failures, which is conservative here: the tokens produced by the
  amount regex never contain letters or underscores, and every claim
  below is insensitive to that restriction.
* A PDF document is modelled as the list of its text lines (the pages
  before page 3 already skipped): page iteration and `pdfplumber` are
  I/O collaborators outside the embedded core.
* `re.findall(r"-\s?[0-9\.\,]+", line)` is embedded as `findMatches`, a
  left-to-right, leftmost-then-greedy, non-overlapping scanner.  The
  recursion is expressed with an explicit fuel argument (initialised to
  the length of the line, which is sufficient) so that the definition is
  structurally recursive.
* Whitespace is modelled as the six ASCII whitespace characters
  (`isPySpace`), which is exactly the set `float` strips; for `\s` and
  `str.strip` the model is exact on text made of printable ASCII plus
  those six characters, while the separator controls 0x1c-0x1f and
  non-ASCII whitespace lie outside the modelled fragment.
-/

/-- ASCII decimal digit, the `[0-9]` part of the amount pattern. -/
def isDigitC (c : Char) : Bool := decide (48 ≤ c.toNat ∧ c.toNat ≤ 57)

/-- A character matched by `[0-9\.\,]` in the amount pattern. -/
def isNumChar (c : Char) : Bool := isDigitC c || c == '.' || c == ','

/-- ASCII whitespace as matched by `\s` and stripped by `float` (space,
tab, newline, carriage return, vertical tab, form feed). -/
def isPySpace (c : Char) : Bool :=
  c == ' ' || c == '\t' || c == '\n' || c == '\r' ||
  c == Char.ofNat 11 || c == Char.ofNat 12

/-- Lower-case an ASCII letter, used for the case-insensitive "nan"/"inf"
keywords of Python `float`. -/
def lowerAscii (c : Char) : Char :=
  if 65 ≤ c.toNat ∧ c.toNat ≤ 90 then Char.ofNat (c.toNat + 32) else c

/-- The value of a Python `float(...)` call: a finite rational, an
infinity, or NaN. -/
inductive PyFloat where
  | num (q : ℚ)
  | inf
  | ninf
  | nan
deriving DecidableEq

/-- The Python comparison `v > 0` (false for NaN, true for `inf`). -/
def PyFloat.gtZero : PyFloat → Bool
  | .num q => decide (0 < q)
  | .inf => true
  | .ninf => false
  | .nan => false

/-- The Python comparison `v >= 0` (false for NaN). -/
def PyFloat.geZero : PyFloat → Bool
  | .num q => decide (0 ≤ q)
  | .inf => true
  | .ninf => false
  | .nan => false

/-- The rational value of a finite `PyFloat`; the non-finite branches are
never reached by the parser (see `token_num`). -/
def PyFloat.ratValue : PyFloat → ℚ
  | .num q => q
  | _ => 0

/-- Python `abs` on a `float` value. -/
def PyFloat.pyAbs : PyFloat → PyFloat
  | .num q => .num |q|
  | .inf => .inf
  | .ninf => .inf
  | .nan => .nan

/-- The digits of a numeral read left to right, as in positional decimal
notation. -/
def digitsVal (l : List Char) : ℕ := l.foldl (fun a c => 10 * a + (c.toNat - 48)) 0

/-- The plain decimal fragment of the Python `float` grammar (without
sign): digits with at most one dot and at least one digit overall. -/
def parseDecimal (u : List Char) : Option ℚ :=
  let d1 := u.takeWhile isDigitC
  match u.dropWhile isDigitC with
  | [] => if d1.isEmpty then none else some ((digitsVal d1 : ℕ) : ℚ)
  | c :: r2 =>
    if c = '.' then
      let d2 := r2.takeWhile isDigitC
      if (r2.dropWhile isDigitC).isEmpty then
        if d1.isEmpty && d2.isEmpty then none
        else some (((digitsVal d1 : ℕ) : ℚ) + ((digitsVal d2 : ℕ) : ℚ) / (10 : ℚ) ^ d2.length)
      else none
    else none

/-- Drop leading and trailing whitespace, as Python `float` does before
parsing. -/
def pyStrip (l : List Char) : List Char :=
  ((l.dropWhile isPySpace).reverse.dropWhile isPySpace).reverse

/-- Parse a sign-free token as Python `float` does: the keywords "nan",
"inf", "infinity" (case-insensitive) or a decimal numeral. -/
def pyParseUnsigned (sgn : ℚ) (u : List Char) : Option PyFloat :=
  let w := u.map lowerAscii
  if w = "nan".data then some .nan
  else if w = "inf".data ∨ w = "infinity".data then
    some (if sgn < 0 then .ninf else .inf)
  else
    match parseDecimal u with
    | some q => some (.num (sgn * q))
    | none => none

/-- Python `float(s)` on a string: strip surrounding whitespace, read an
optional sign, then parse the unsigned remainder. -/
def pyParseFloat (s : List Char) : Option PyFloat :=
  match pyStrip s with
  | [] => pyParseUnsigned 1 []
  | c :: r =>
    if c = '+' then pyParseUnsigned 1 r
    else if c = '-' then pyParseUnsigned (-1) r
    else pyParseUnsigned 1 (c :: r)

/-- The normalisation chain of `bersihkan_nominal`: remove every `+`,
`-` and space, then remove every `.` (thousands separator), then turn
every `,` into `.` (decimal separator). -/
def normalisasi (s : String) : List Char :=
  ((s.data.filter (fun c => !(c == '+' || c == '-' || c == ' '))).filter
      (fun c => !(c == '.'))).map (fun c => if c = ',' then '.' else c)

/-- `bersihkan_nominal`: normalise an Indonesian-format numeral token and
parse it; a parse failure yields `0.0`. -/
def bersihkan_nominal (s : String) : PyFloat :=
  match pyParseFloat (normalisasi s) with
  | some v => v
  | none => .num 0

/-- The scanner for `re.findall(r"-\s?[0-9\.\,]+", line)`: at a `-`, try
one optional whitespace character, then a maximal non-empty run of
`[0-9.,]`; matches are non-overlapping and found left to right.  `fuel`
only forces structural recursion; `findMatches` supplies enough of it. -/
def findMatchesAux : ℕ → List Char → List (List Char)
  | 0, _ => []
  | _ + 1, [] => []
  | fuel + 1, c :: rest =>
    if c = '-' then
      match rest with
      | [] => []
      | d :: ds =>
        if isPySpace d then
          let run := ds.takeWhile isNumChar
          if run.isEmpty then findMatchesAux fuel (d :: ds)
          else ('-' :: d :: run) :: findMatchesAux fuel (ds.drop run.length)
        else if isNumChar d then
          let run := ds.takeWhile isNumChar
          ('-' :: d :: run) :: findMatchesAux fuel (ds.drop run.length)
        else findMatchesAux fuel (d :: ds)
    else findMatchesAux fuel rest

/-- All matches of the amount pattern `-\s?[0-9\.\,]+` on a line. -/
def findMatches (l : List Char) : List (List Char) := findMatchesAux l.length l

/-- One parsed statement row: `{"Deskripsi": ..., "Pengeluaran": ...}`. -/
structure Transaksi where
  deskripsi : String
  pengeluaran : ℚ
deriving DecidableEq

/-- Python `line.strip()`: the line without surrounding whitespace. -/
def stripLine (line : String) : String := String.mk (pyStrip line.data)

/-- The per-line body of `extract_transaksi_harian_jago`: find the
matches of the amount pattern, normalise the last one, and keep the row
only when the value is positive. -/
def extract_transaksi_line (line : String) : Option Transaksi :=
  match (findMatches line.data).getLast? with
  | none => none
  | some m =>
    let nominal := bersihkan_nominal (String.mk m)
    if nominal.gtZero then some ⟨stripLine line, nominal.ratValue⟩ else none

/-- `extract_transaksi_harian_jago` over one document, the document given
as its list of text lines (pages 1-2 already skipped, a page with no
text contributing no lines). -/
def extract_transaksi_harian_jago (baris : List String) : List Transaksi :=
  baris.filterMap extract_transaksi_line

/-- `pdfs_to_dataframe`: extract every document, keep the non-empty
per-document results, concatenate them in order, and drop non-positive
amounts. -/
def pdfs_to_dataframe (dokumen : List (List String)) : List Transaksi :=
  let all_data := (dokumen.map extract_transaksi_harian_jago).filter (fun df => !df.isEmpty)
  if all_data.isEmpty then []
  else all_data.flatten.filter (fun t => decide (0 < t.pengeluaran))

/-- Insert a value into a sorted list of amounts. -/
def insertSorted (x : ℚ) : List ℚ → List ℚ
  | [] => [x]
  | y :: ys => if x ≤ y then x :: y :: ys else y :: insertSorted x ys

/-- Sort a list of amounts ascending, as the percentile computation
requires. -/
def sortQ (l : List ℚ) : List ℚ := l.foldr insertSorted []

/-- `Series.quantile(p)` with the default linear interpolation: for the
sorted values `x_0 .. x_(n-1)` and rank `h = p * (n - 1)`, interpolate
between `x_i` and `x_(i+1)` where `i = floor h`.  The result on an empty
series is irrelevant to every use below (both uses filter with it over
an empty list); it is set to `0`. -/
def quantileQ (xs : List ℚ) (p : ℚ) : ℚ :=
  match sortQ xs with
  | [] => 0
  | a :: rest =>
    let s := a :: rest
    let n := s.length
    let h : ℚ := p * ((n : ℚ) - 1)
    let i : ℕ := (⌊h⌋).toNat
    let lo := s.getD i 0
    let hi := s.getD (i + 1) lo
    lo + (h - (i : ℚ)) * (hi - lo)

/-- `filter_pengeluaran_rutin`: the two-stage statistical routine-expense
filter, written exactly as the source computes it (quantiles `0.25`,
`0.75`, the `1.5 * IQR` upper bound capped at `100_000`, the
`max(Q1 * 0.5, 5_000)` lower bound, then the P20-P80 band of the
retained subset). -/
def filter_pengeluaran_rutin (data : List Transaksi) : List Transaksi :=
  if data.isEmpty then data
  else
    let Q1 := quantileQ (data.map Transaksi.pengeluaran) (25/100)
    let Q3 := quantileQ (data.map Transaksi.pengeluaran) (75/100)
    let IQR := Q3 - Q1
    let batas_atas := Q3 + (15/10) * IQR
    let cap_maksimum : ℚ := 100000
    let batas_atas := min batas_atas cap_maksimum
    let batas_bawah := max (Q1 * (5/10)) 5000
    let data_filtered := data.filter
      (fun t => decide (batas_bawah ≤ t.pengeluaran) && decide (t.pengeluaran ≤ batas_atas))
    let p20 := quantileQ (data_filtered.map Transaksi.pengeluaran) (20/100)
    let p80 := quantileQ (data_filtered.map Transaksi.pengeluaran) (80/100)
    data_filtered.filter
      (fun t => decide (p20 ≤ t.pengeluaran) && decide (t.pengeluaran ≤ p80))

/-- The Routine Filter exactly as the specification words it: retain the
transactions with `lower ≤ amount ≤ upper` for
`upper = min(Q3 + 1.5 * IQR, 100_000)` and `lower = max(Q1 * 0.5, 5_000)`,
then retain the transactions of that subset lying inclusively within
`[p20, p80]` of the subset's amounts. -/
def routineFilterSpec (data : List Transaksi) : List Transaksi :=
  let q1 := quantileQ (data.map Transaksi.pengeluaran) (25/100)
  let q3 := quantileQ (data.map Transaksi.pengeluaran) (75/100)
  let upper := min (q3 + (15/10) * (q3 - q1)) 100000
  let lower := max (q1 * (5/10)) 5000
  let retained := data.filter
    (fun t => decide (lower ≤ t.pengeluaran) && decide (t.pengeluaran ≤ upper))
  let p20 := quantileQ (retained.map Transaksi.pengeluaran) (20/100)
  let p80 := quantileQ (retained.map Transaksi.pengeluaran) (80/100)
  retained.filter
    (fun t => decide (p20 ≤ t.pengeluaran) && decide (t.pengeluaran ≤ p80))

/-- Round half to even, the rule of Python's built-in `round`. -/
def rndHalfEven (x : ℚ) : ℤ :=
  let f := ⌊x⌋
  let r := x - (f : ℚ)
  if r < 1/2 then f
  else if 1/2 < r then f + 1
  else if f % 2 = 0 then f else f + 1

/-- `int(round(x, -3))`: round to the nearest thousand (half to even at
the thousands digit). -/
def round_ribuan (x : ℚ) : ℤ := 1000 * rndHalfEven (x / 1000)

/-- The daily simulation loop: starting from the current balance,
subtract the daily estimate once per remaining day, recording every
intermediate balance (`saldo_harian` in the source). -/
def simulasiLoop (estimasi : ℚ) : ℕ → ℚ → List ℚ
  | 0, saldo => [saldo]
  | n + 1, saldo => saldo :: simulasiLoop estimasi n (saldo - estimasi)

/-- The reasons `prediksi_harian` returns without a forecast (date
parsing aside, which is an I/O concern of the presentation layer). -/
inductive PrediksiError where
  | periodExhausted
  | insufficientData
deriving DecidableEq

/-- The data a successful `prediksi_harian` run computes and reports. -/
structure HasilPrediksi where
  sisa_hari : ℤ
  median_harian : ℚ
  estimasi_harian : ℤ
  total_pengeluaran_sisa : ℤ
  estimasi_saldo_akhir : ℚ
  tanggal_list : List ℕ
  saldo_harian : List ℚ
deriving DecidableEq

/-- The computation `prediksi_harian` performs once both guards have
passed: median of the routine amounts, `median * 1.15` rounded to the
nearest thousand, the projected total and final balance, and the daily
balance trajectory. -/
def prediksi_core (saldo_saat_ini : ℚ) (hari_sekarang : ℕ)
    (data_rutin : List Transaksi) (sisa_hari : ℤ) : HasilPrediksi :=
  let median_harian := quantileQ (data_rutin.map Transaksi.pengeluaran) (50/100)
  let estimasi_harian : ℤ := round_ribuan (median_harian * (115/100))
  let total_pengeluaran_sisa : ℤ := estimasi_harian * sisa_hari
  let estimasi_saldo_akhir : ℚ := saldo_saat_ini - (total_pengeluaran_sisa : ℚ)
  { sisa_hari := sisa_hari
    median_harian := median_harian
    estimasi_harian := estimasi_harian
    total_pengeluaran_sisa := total_pengeluaran_sisa
    estimasi_saldo_akhir := estimasi_saldo_akhir
    tanggal_list := (List.range (sisa_hari.toNat + 1)).map (fun i => hari_sekarang + i)
    saldo_harian := simulasiLoop (estimasi_harian : ℚ) sisa_hari.toNat saldo_saat_ini }

/-- `prediksi_harian`, with the as-of date represented by its day of
month (the only part of the parsed date the source uses): assume a
30-day month, stop with no forecast when no day remains or when the
routine filter leaves nothing, and otherwise forecast. -/
def prediksi_harian (saldo_saat_ini : ℚ) (hari_sekarang : ℕ)
    (data_asli : List Transaksi) : Except PrediksiError HasilPrediksi :=
  let hari_bulan : ℤ := 30
  let sisa_hari : ℤ := hari_bulan - (hari_sekarang : ℤ)
  if sisa_hari ≤ 0 then .error .periodExhausted
  else
    let data_rutin := filter_pengeluaran_rutin data_asli
    if data_rutin.isEmpty then .error .insufficientData
    else .ok (prediksi_core saldo_saat_ini hari_sekarang data_rutin sisa_hari)

/-- The final-balance bands of the report: deficit below `0`, tight on
`[0, 100_000)`, adequate on `[100_000, 300_000)`, safe at `300_000` and
above. -/
inductive Klasifikasi where
  | defisit
  | tipis
  | cukup
  | aman
deriving DecidableEq

/-- The `if/elif` classification chain of the report. -/
def klasifikasi_saldo (s : ℚ) : Klasifikasi :=
  if s < 0 then .defisit
  else if s < 100000 then .tipis
  else if s < 300000 then .cukup
  else .aman

/-- The amount pattern as the specification words it, with the leading
`-` OPTIONAL: `-?\s?[0-9\.\,]+` under the same leftmost-then-greedy,
non-overlapping `findall` semantics.  Used only to compare the
specified parser with the implemented one. -/
def findMatchesSpecAux : ℕ → List Char → List (List Char)
  | 0, _ => []
  | _ + 1, [] => []
  | fuel + 1, c :: rest =>
    if c = '-' then
      match rest with
      | [] => []
      | d :: ds =>
        if isPySpace d then
          let run := ds.takeWhile isNumChar
          if run.isEmpty then findMatchesSpecAux fuel (d :: ds)
          else ('-' :: d :: run) :: findMatchesSpecAux fuel (ds.drop run.length)
        else if isNumChar d then
          let run := ds.takeWhile isNumChar
          ('-' :: d :: run) :: findMatchesSpecAux fuel (ds.drop run.length)
        else findMatchesSpecAux fuel (d :: ds)
    else if isPySpace c then
      match rest with
      | [] => []
      | d :: ds =>
        if isNumChar d then
          let run := ds.takeWhile isNumChar
          (c :: d :: run) :: findMatchesSpecAux fuel (ds.drop run.length)
        else findMatchesSpecAux fuel rest
    else if isNumChar c then
      let run := rest.takeWhile isNumChar
      (c :: run) :: findMatchesSpecAux fuel (rest.drop run.length)
    else findMatchesSpecAux fuel rest

/-- All matches of the specification's optional-minus amount pattern. -/
def findMatchesSpec (l : List Char) : List (List Char) := findMatchesSpecAux l.length l

section Helpers

lemma mem_takeWhile (p : Char → Bool) :
    ∀ (l : List Char) (c : Char), c ∈ l.takeWhile p → p c = true := by
  intro l
  induction l with
  | nil => intro c hc; simp [List.takeWhile] at hc
  | cons a l ih =>
    intro c hc
    rw [List.takeWhile_cons] at hc
    by_cases hpa : p a = true
    · rw [if_pos hpa] at hc
      rcases List.mem_cons.1 hc with rfl | hc'
      · exact hpa
      · exact ih c hc'
    · rw [if_neg hpa] at hc
      simp at hc

lemma mem_dropWhile (p : Char → Bool) :
    ∀ (l : List Char) (c : Char), c ∈ l.dropWhile p → c ∈ l := by
  intro l
  induction l with
  | nil => intro c hc; simp [List.dropWhile] at hc
  | cons a l ih =>
    intro c hc
    rw [List.dropWhile_cons] at hc
    by_cases hpa : p a = true
    · rw [if_pos hpa] at hc
      exact List.mem_cons_of_mem a (ih c hc)
    · rw [if_neg hpa] at hc
      exact hc

lemma mem_pyStrip {l : List Char} {c : Char} (hc : c ∈ pyStrip l) : c ∈ l := by
  unfold pyStrip at hc
  rw [List.mem_reverse] at hc
  have h1 := mem_dropWhile _ _ _ hc
  rw [List.mem_reverse] at h1
  exact mem_dropWhile _ _ _ h1

lemma dropWhile_of_false {p : Char → Bool} :
    ∀ {l : List Char}, (∀ c ∈ l, p c = false) → l.dropWhile p = l := by
  intro l h
  cases l with
  | nil => rfl
  | cons a t =>
    rw [List.dropWhile_cons, if_neg]
    rw [h a (List.mem_cons_self a t)]
    simp

lemma dropWhile_of_true {p : Char → Bool} :
    ∀ {l : List Char}, (∀ c ∈ l, p c = true) → l.dropWhile p = [] := by
  intro l
  induction l with
  | nil => intro h; rfl
  | cons a t ih =>
    intro h
    rw [List.dropWhile_cons, if_pos (h a (List.mem_cons_self a t))]
    exact ih fun c hc => h c (List.mem_cons_of_mem a hc)

lemma takeWhile_of_true {p : Char → Bool} :
    ∀ {l : List Char}, (∀ c ∈ l, p c = true) → l.takeWhile p = l := by
  intro l
  induction l with
  | nil => intro h; rfl
  | cons a t ih =>
    intro h
    rw [List.takeWhile_cons, if_pos (h a (List.mem_cons_self a t))]
    rw [ih fun c hc => h c (List.mem_cons_of_mem a hc)]

lemma map_id_of {f : Char → Char} :
    ∀ {l : List Char}, (∀ c ∈ l, f c = c) → l.map f = l := by
  intro l
  induction l with
  | nil => intro h; rfl
  | cons a t ih =>
    intro h
    rw [List.map_cons, h a (List.mem_cons_self a t),
      ih fun c hc => h c (List.mem_cons_of_mem a hc)]

lemma pyStrip_eq_self {l : List Char} (h : ∀ c ∈ l, isPySpace c = false) :
    pyStrip l = l := by
  unfold pyStrip
  rw [dropWhile_of_false h, dropWhile_of_false, List.reverse_reverse]
  intro c hc
  exact h c (List.mem_reverse.1 hc)

lemma getLast?_mem : ∀ {l : List (List Char)} {m : List Char},
    l.getLast? = some m → m ∈ l := by
  intro l
  induction l with
  | nil => intro m h; simp at h
  | cons a t ih =>
    intro m h
    cases t with
    | nil => simp at h; subst h; exact List.mem_cons_self _ _
    | cons b t' =>
      rw [List.getLast?_cons_cons] at h
      exact List.mem_cons_of_mem a (ih h)

end Helpers

section ParseLemmas

lemma parseDecimal_nonneg {u : List Char} {q : ℚ} (h : parseDecimal u = some q) :
    0 ≤ q := by
  unfold parseDecimal at h
  cases hdw : u.dropWhile isDigitC with
  | nil =>
    rw [hdw] at h
    try dsimp only at h
    by_cases h1 : (u.takeWhile isDigitC).isEmpty = true
    · rw [if_pos h1] at h
      cases h
    · rw [if_neg h1] at h
      rw [Option.some.injEq] at h
      subst h
      positivity
  | cons c r2 =>
    rw [hdw] at h
    try dsimp only at h
    by_cases hc : c = '.'
    · rw [if_pos hc] at h
      try dsimp only at h
      by_cases h2 : (r2.dropWhile isDigitC).isEmpty = true
      · rw [if_pos h2] at h
        by_cases h3 : ((u.takeWhile isDigitC).isEmpty && (r2.takeWhile isDigitC).isEmpty) = true
        · rw [if_pos h3] at h
          cases h
        · rw [if_neg h3] at h
          rw [Option.some.injEq] at h
          subst h
          positivity
      · rw [if_neg h2] at h
        cases h
    · rw [if_neg hc] at h
      cases h

lemma pyParseUnsigned_one (u : List Char) :
    pyParseUnsigned 1 u = some .nan ∨ pyParseUnsigned 1 u = some .inf ∨
    (∃ q, 0 ≤ q ∧ pyParseUnsigned 1 u = some (.num q)) ∨
    pyParseUnsigned 1 u = none := by
  unfold pyParseUnsigned
  by_cases h1 : u.map lowerAscii = "nan".data
  · rw [if_pos h1]; left; rfl
  · rw [if_neg h1]
    by_cases h2 : u.map lowerAscii = "inf".data ∨ u.map lowerAscii = "infinity".data
    · rw [if_pos h2]
      right; left
      rw [if_neg]
      norm_num
    · rw [if_neg h2]
      cases hp : parseDecimal u with
      | none => right; right; right; rfl
      | some q =>
        right; right; left
        refine ⟨1 * q, ?_, rfl⟩
        rw [one_mul]
        exact parseDecimal_nonneg hp

lemma pyParseFloat_no_sign {v : List Char} (hv : ∀ c ∈ v, c ≠ '+' ∧ c ≠ '-') :
    pyParseFloat v = pyParseUnsigned 1 (pyStrip v) := by
  unfold pyParseFloat
  cases hs : pyStrip v with
  | nil => rfl
  | cons c r =>
    have hc : c ∈ v := mem_pyStrip (hs ▸ List.mem_cons_self c r)
    obtain ⟨h1, h2⟩ := hv c hc
    dsimp only
    rw [if_neg h1, if_neg h2]

lemma normalisasi_mem {s : String} {c : Char} (hc : c ∈ normalisasi s) :
    ∃ c', c' ∈ s.data ∧ c' ≠ '+' ∧ c' ≠ '-' ∧ c' ≠ ' ' ∧ c' ≠ '.' ∧
      c = (if c' = ',' then '.' else c') := by
  unfold normalisasi at hc
  rcases List.mem_map.1 hc with ⟨c', hc', rfl⟩
  rcases List.mem_filter.1 hc' with ⟨hc'', hdot⟩
  rcases List.mem_filter.1 hc'' with ⟨hmem, hP⟩
  simp only [Bool.not_eq_true', beq_eq_false_iff_ne, ne_eq] at hdot
  simp only [Bool.not_eq_true', Bool.or_eq_false_iff, beq_eq_false_iff_ne, ne_eq] at hP
  exact ⟨c', hmem, hP.1.1, hP.1.2, hP.2, hdot, rfl⟩

lemma normalisasi_no_sign (s : String) :
    ∀ c ∈ normalisasi s, c ≠ '+' ∧ c ≠ '-' := by
  intro c hc
  obtain ⟨c', _, hplus, hminus, _, _, hform⟩ := normalisasi_mem hc
  subst hform
  by_cases hk : c' = ','
  · rw [if_pos hk]
    constructor <;> decide
  · rw [if_neg hk]
    exact ⟨hplus, hminus⟩

lemma bersihkan_cases (s : String) :
    bersihkan_nominal s = .inf ∨ bersihkan_nominal s = .nan ∨
    ∃ q, 0 ≤ q ∧ bersihkan_nominal s = .num q := by
  have hns := normalisasi_no_sign s
  have hps := pyParseFloat_no_sign hns
  rcases pyParseUnsigned_one (pyStrip (normalisasi s)) with h | h | ⟨q, hq, h⟩ | h
  · right; left
    rw [bersihkan_nominal, hps, h]
  · left
    rw [bersihkan_nominal, hps, h]
  · right; right
    exact ⟨q, hq, by rw [bersihkan_nominal, hps, h]⟩
  · right; right
    exact ⟨0, le_refl 0, by rw [bersihkan_nominal, hps, h]⟩

end ParseLemmas

section TokenLemmas

lemma findMatchesAux_chars :
    ∀ (fuel : ℕ) (l : List Char), ∀ m ∈ findMatchesAux fuel l, ∀ c ∈ m,
      c = '-' ∨ isPySpace c = true ∨ isNumChar c = true := by
  intro fuel
  induction fuel with
  | zero => intro l m hm; simp [findMatchesAux] at hm
  | succ fuel ih =>
    intro l m hm
    rcases l with _ | ⟨ch, rest⟩
    · simp [findMatchesAux] at hm
    · simp only [findMatchesAux] at hm
      by_cases h1 : ch = '-'
      · rw [if_pos h1] at hm
        rcases rest with _ | ⟨d, ds⟩
        · simp at hm
        · dsimp only at hm
          by_cases h2 : isPySpace d = true
          · rw [if_pos h2] at hm
            by_cases h3 : (ds.takeWhile isNumChar).isEmpty = true
            · rw [if_pos h3] at hm
              exact ih _ _ hm
            · rw [if_neg h3] at hm
              rcases List.mem_cons.1 hm with rfl | hm'
              · intro c hc
                rcases List.mem_cons.1 hc with rfl | hc'
                · left; rfl
                · rcases List.mem_cons.1 hc' with rfl | hc''
                  · right; left; exact h2
                  · right; right; exact mem_takeWhile _ _ _ hc''
              · exact ih _ _ hm'
          · rw [if_neg h2] at hm
            by_cases h4 : isNumChar d = true
            · rw [if_pos h4] at hm
              rcases List.mem_cons.1 hm with rfl | hm'
              · intro c hc
                rcases List.mem_cons.1 hc with rfl | hc'
                · left; rfl
                · rcases List.mem_cons.1 hc' with rfl | hc''
                  · right; right; exact h4
                  · right; right; exact mem_takeWhile _ _ _ hc''
              · exact ih _ _ hm'
            · rw [if_neg h4] at hm
              exact ih _ _ hm
      · rw [if_neg h1] at hm
        exact ih _ _ hm

lemma findMatches_chars {l : List Char} {m : List Char} (hm : m ∈ findMatches l) :
    ∀ c ∈ m, c = '-' ∨ isPySpace c = true ∨ isNumChar c = true :=
  findMatchesAux_chars l.length l m hm

/-- The characters a regex token can contain after normalisation:
decimal digits, a dot, or a non-space whitespace character. -/
def tokenChar (c : Char) : Prop :=
  isDigitC c = true ∨ c = '.' ∨ c = '\t' ∨ c = '\n' ∨ c = '\r' ∨
    c = Char.ofNat 11 ∨ c = Char.ofNat 12

lemma tokenChar_lower {c : Char} (h : tokenChar c) : lowerAscii c = c := by
  rcases h with h | h | h | h | h | h | h
  · unfold lowerAscii
    rw [if_neg]
    unfold isDigitC at h
    rw [decide_eq_true_iff] at h
    omega
  all_goals subst h; decide

lemma tokenChar_not_letter {c : Char} (h : tokenChar c) :
    c ≠ 'n' ∧ c ≠ 'i' := by
  rcases h with h | h | h | h | h | h | h
  · constructor <;> intro hc <;> subst hc <;> simp [isDigitC] at h
  all_goals subst h; constructor <;> decide

lemma tokenChar_not_sign {c : Char} (h : tokenChar c) :
    c ≠ '+' ∧ c ≠ '-' := by
  rcases h with h | h | h | h | h | h | h
  · constructor <;> intro hc <;> subst hc <;> simp [isDigitC] at h
  all_goals subst h; constructor <;> decide

lemma token_normalisasi_chars {l m : List Char} (hm : m ∈ findMatches l) :
    ∀ c ∈ normalisasi (String.mk m), tokenChar c := by
  intro c hc
  obtain ⟨c', hc', _, hminus, hspace, hdot, hform⟩ := normalisasi_mem hc
  have hS : c' = '-' ∨ isPySpace c' = true ∨ isNumChar c' = true :=
    findMatches_chars hm c' hc'
  subst hform
  rcases hS with rfl | hS | hS
  · exact absurd rfl hminus
  · have hk : c' ≠ ',' := by
      intro hk; subst hk; simp [isPySpace] at hS
    rw [if_neg hk]
    simp only [isPySpace, Bool.or_eq_true, beq_iff_eq] at hS
    rcases hS with ((((rfl | rfl) | rfl) | rfl) | rfl) | rfl
    · exact absurd rfl hspace
    · right; right; left; rfl
    · right; right; right; left; rfl
    · right; right; right; right; left; rfl
    · right; right; right; right; right; left; rfl
    · right; right; right; right; right; right; rfl
  · by_cases hk : c' = ','
    · rw [if_pos hk]
      right; left; rfl
    · rw [if_neg hk]
      simp only [isNumChar, Bool.or_eq_true, beq_iff_eq] at hS
      rcases hS with (hS | rfl) | rfl
      · left; exact hS
      · exact absurd rfl hdot
      · exact absurd rfl hk

lemma token_num {l m : List Char} (hm : m ∈ findMatches l) :
    ∃ q, 0 ≤ q ∧ bersihkan_nominal (String.mk m) = .num q := by
  have hT := token_normalisasi_chars hm
  have hu : ∀ c ∈ pyStrip (normalisasi (String.mk m)), tokenChar c :=
    fun c hc => hT c (mem_pyStrip hc)
  have hw : (pyStrip (normalisasi (String.mk m))).map lowerAscii
      = pyStrip (normalisasi (String.mk m)) :=
    map_id_of fun c hc => tokenChar_lower (hu c hc)
  have hns : ∀ c ∈ normalisasi (String.mk m), c ≠ '+' ∧ c ≠ '-' :=
    fun c hc => tokenChar_not_sign (hT c hc)
  have hnan : pyStrip (normalisasi (String.mk m)) ≠ "nan".data := by
    intro h
    have : 'n' ∈ pyStrip (normalisasi (String.mk m)) := by
      rw [h]; decide
    exact (tokenChar_not_letter (hu _ this)).1 rfl
  have hinf : pyStrip (normalisasi (String.mk m)) ≠ "inf".data := by
    intro h
    have : 'i' ∈ pyStrip (normalisasi (String.mk m)) := by
      rw [h]; decide
    exact (tokenChar_not_letter (hu _ this)).2 rfl
  have hinfy : pyStrip (normalisasi (String.mk m)) ≠ "infinity".data := by
    intro h
    have : 'i' ∈ pyStrip (normalisasi (String.mk m)) := by
      rw [h]; decide
    exact (tokenChar_not_letter (hu _ this)).2 rfl
  rw [bersihkan_nominal, pyParseFloat_no_sign hns]
  unfold pyParseUnsigned
  rw [hw, if_neg hnan, if_neg (by rw [not_or]; exact ⟨hinf, hinfy⟩)]
  cases hp : parseDecimal (pyStrip (normalisasi (String.mk m))) with
  | none => exact ⟨0, le_refl 0, rfl⟩
  | some q =>
    refine ⟨1 * q, ?_, rfl⟩
    rw [one_mul]
    exact parseDecimal_nonneg hp

/-- Invert a successful line extraction: there is a last match, it
normalises to a positive finite value, and the row records the stripped
line together with that value. -/
lemma extract_some_inv {line : String} {t : Transaksi}
    (h : extract_transaksi_line line = some t) :
    ∃ m q, (findMatches line.data).getLast? = some m ∧
      bersihkan_nominal (String.mk m) = .num q ∧ 0 < q ∧
      t = ⟨stripLine line, q⟩ := by
  unfold extract_transaksi_line at h
  cases hma : (findMatches line.data).getLast? with
  | none => rw [hma] at h; cases h
  | some m =>
    rw [hma] at h
    dsimp only at h
    obtain ⟨q, hq0, hqeq⟩ := token_num (getLast?_mem hma)
    rw [hqeq] at h
    by_cases hq : 0 < q
    · rw [if_pos (by simp [PyFloat.gtZero, hq])] at h
      rw [Option.some.injEq] at h
      exact ⟨m, q, rfl, hqeq, hq, h.symm⟩
    · rw [if_neg (by simp [PyFloat.gtZero, hq])] at h
      cases h

end TokenLemmas

section RoundingLemmas

lemma rndHalfEven_close (x : ℚ) : |x - (rndHalfEven x : ℚ)| ≤ 1/2 := by
  have h0 : (⌊x⌋ : ℚ) ≤ x := Int.floor_le x
  have h1 : x < (⌊x⌋ : ℚ) + 1 := Int.lt_floor_add_one x
  unfold rndHalfEven
  dsimp only
  split_ifs with hlt hgt heven
  · rw [abs_le]
    constructor <;> linarith
  · push_cast
    rw [abs_le]
    constructor <;> linarith
  · rw [abs_le]
    constructor <;> linarith
  · push_cast
    rw [abs_le]
    constructor <;> linarith

lemma round_ribuan_close (x : ℚ) : |x - (round_ribuan x : ℚ)| ≤ 500 := by
  have h := rndHalfEven_close (x / 1000)
  unfold round_ribuan
  push_cast
  have hx : x - 1000 * (rndHalfEven (x / 1000) : ℚ)
      = 1000 * (x / 1000 - (rndHalfEven (x / 1000) : ℚ)) := by ring
  rw [hx, abs_mul, abs_of_pos (by norm_num : (0:ℚ) < 1000)]
  linarith [abs_nonneg (x / 1000 - (rndHalfEven (x / 1000) : ℚ))]

lemma round_ribuan_dvd (x : ℚ) : (1000 : ℤ) ∣ round_ribuan x :=
  ⟨rndHalfEven (x / 1000), rfl⟩

end RoundingLemmas

section TrajectoryLemmas

lemma simulasiLoop_length (e : ℚ) :
    ∀ (n : ℕ) (s : ℚ), (simulasiLoop e n s).length = n + 1 := by
  intro n
  induction n with
  | zero => intro s; rfl
  | succ n ih => intro s; simp [simulasiLoop, ih]

lemma simulasiLoop_getElem (e : ℚ) :
    ∀ (n k : ℕ) (s : ℚ), k ≤ n →
      (simulasiLoop e n s)[k]? = some (s - e * k) := by
  intro n
  induction n with
  | zero =>
    intro k s hk
    have hk0 : k = 0 := Nat.le_zero.1 hk
    subst hk0
    simp [simulasiLoop]
  | succ n ih =>
    intro k s hk
    cases k with
    | zero => simp [simulasiLoop]
    | succ k =>
      have h2 : k ≤ n := Nat.succ_le_succ_iff.1 hk
      simp only [simulasiLoop, List.getElem?_cons_succ]
      rw [ih k _ h2]
      rw [Option.some.injEq]
      push_cast
      ring

lemma prediksi_ok_inv {saldo : ℚ} {hari : ℕ} {data : List Transaksi}
    {r : HasilPrediksi} (h : prediksi_harian saldo hari data = .ok r) :
    ¬((30 : ℤ) - (hari : ℤ) ≤ 0) ∧
    (filter_pengeluaran_rutin data).isEmpty = false ∧
    r = prediksi_core saldo hari (filter_pengeluaran_rutin data) (30 - (hari : ℤ)) := by
  unfold prediksi_harian at h
  dsimp only at h
  by_cases h1 : (30 : ℤ) - (hari : ℤ) ≤ 0
  · rw [if_pos h1] at h
    cases h
  · rw [if_neg h1] at h
    by_cases h2 : (filter_pengeluaran_rutin data).isEmpty = true
    · rw [if_pos h2] at h
      cases h
    · rw [if_neg h2] at h
      rw [Except.ok.injEq] at h
      exact ⟨h1, Bool.not_eq_true _ ▸ h2, h.symm⟩

end TrajectoryLemmas

section ConcreteEval

lemma digit_not_space {c : Char} (h : isDigitC c = true) : isPySpace c = false := by
  cases hps : isPySpace c
  · rfl
  · exfalso
    simp only [isPySpace, Bool.or_eq_true, beq_iff_eq] at hps
    rcases hps with ((((rfl | rfl) | rfl) | rfl) | rfl) | rfl <;> simp [isDigitC] at h

lemma pyParseFloat_all_digits {d : List Char} (hne : d ≠ [])
    (hdig : ∀ c ∈ d, isDigitC c = true) :
    pyParseFloat d = some (.num ((digitsVal d : ℕ) : ℚ)) := by
  have hstrip : pyStrip d = d :=
    pyStrip_eq_self fun c hc => digit_not_space (hdig c hc)
  have hw : d.map lowerAscii = d :=
    map_id_of fun c hc => tokenChar_lower (Or.inl (hdig c hc))
  have hparse : parseDecimal d = some ((digitsVal d : ℕ) : ℚ) := by
    unfold parseDecimal
    rw [dropWhile_of_true hdig]
    dsimp only
    rw [takeWhile_of_true hdig, if_neg]
    rw [List.isEmpty_iff]
    exact hne
  have hkey : pyParseUnsigned 1 d = some (.num ((digitsVal d : ℕ) : ℚ)) := by
    unfold pyParseUnsigned
    rw [hw]
    rw [if_neg, if_neg, hparse]
    · dsimp only
      rw [one_mul]
    · rw [not_or]
      constructor
      · intro hd
        have : 'i' ∈ d := by rw [hd]; decide
        exact absurd rfl (tokenChar_not_letter (Or.inl (hdig _ this))).2
      · intro hd
        have : 'i' ∈ d := by rw [hd]; decide
        exact absurd rfl (tokenChar_not_letter (Or.inl (hdig _ this))).2
    · intro hd
      have : 'n' ∈ d := by rw [hd]; decide
      exact absurd rfl (tokenChar_not_letter (Or.inl (hdig _ this))).1
  unfold pyParseFloat
  rw [hstrip]
  cases d with
  | nil => exact absurd rfl hne
  | cons c r =>
    dsimp only
    rw [if_neg, if_neg]
    · exact hkey
    · exact (tokenChar_not_sign (Or.inl (hdig c (List.mem_cons_self c r)))).2
    · exact (tokenChar_not_sign (Or.inl (hdig c (List.mem_cons_self c r)))).1

lemma bersihkan_all_digits {s : String} {d : List Char}
    (hn : normalisasi s = d) (hne : d ≠ [])
    (hdig : ∀ c ∈ d, isDigitC c = true) :
    bersihkan_nominal s = .num ((digitsVal d : ℕ) : ℚ) := by
  rw [bersihkan_nominal, hn, pyParseFloat_all_digits hne hdig]

lemma bersihkan_of_parse_fail {s : String}
    (h : pyParseFloat (normalisasi s) = none) :
    bersihkan_nominal s = .num 0 := by
  rw [bersihkan_nominal, h]

end ConcreteEval

section ExampleRuns

/-- The transaction set of the end-to-end example (amounts
`[10000, 12000, 11000, 15000, 9000]`). -/
def c3_data : List Transaksi :=
  [⟨"trx1", 10000⟩, ⟨"trx2", 12000⟩, ⟨"trx3", 11000⟩, ⟨"trx4", 15000⟩, ⟨"trx5", 9000⟩]

/-- The routine subset the filter retains on `c3_data`. -/
def c3_rutin : List Transaksi := [⟨"trx1", 10000⟩, ⟨"trx2", 12000⟩, ⟨"trx3", 11000⟩]

/-- The forecast computed from `c3_data` with balance `100000` on day
`25`. -/
def c3_hasil : HasilPrediksi :=
  { sisa_hari := 5
    median_harian := 11000
    estimasi_harian := 13000
    total_pengeluaran_sisa := 65000
    estimasi_saldo_akhir := 35000
    tanggal_list := [25, 26, 27, 28, 29, 30]
    saldo_harian := [100000, 87000, 74000, 61000, 48000, 35000] }

lemma filter_c3_eval : filter_pengeluaran_rutin c3_data = c3_rutin := by
  have hq1 : quantileQ [10000, 12000, 11000, 15000, 9000] (25/100) = 10000 := by
    norm_num [quantileQ, sortQ, insertSorted, List.getD]
  have hq3 : quantileQ [10000, 12000, 11000, 15000, 9000] (75/100) = 12000 := by
    norm_num [quantileQ, sortQ, insertSorted, List.getD]
    try simp
    try norm_num
  rw [filter_pengeluaran_rutin, if_neg (by decide)]
  dsimp only
  rw [show c3_data.map Transaksi.pengeluaran = [10000, 12000, 11000, 15000, 9000] from rfl,
    hq1, hq3]
  rw [show min ((12000:ℚ) + 15/10 * (12000 - 10000)) 100000 = 15000 by
    rw [min_eq_left (by norm_num)]; norm_num]
  rw [show max ((10000:ℚ) * (5/10)) 5000 = 5000 by rw [max_eq_right (by norm_num)]]
  rw [show List.filter
      (fun t => decide (5000 ≤ t.pengeluaran) && decide (t.pengeluaran ≤ 15000)) c3_data
      = c3_data by norm_num [c3_data, List.filter_cons, decide_eq_true_eq]]
  rw [show c3_data.map Transaksi.pengeluaran = [10000, 12000, 11000, 15000, 9000] from rfl]
  rw [show quantileQ [10000, 12000, 11000, 15000, 9000] (20/100) = 9800 by
    norm_num [quantileQ, sortQ, insertSorted, List.getD]]
  rw [show quantileQ [10000, 12000, 11000, 15000, 9000] (80/100) = 12600 by
    norm_num [quantileQ, sortQ, insertSorted, List.getD]
    try simp
    try norm_num]
  norm_num [c3_data, c3_rutin, List.filter_cons, decide_eq_true_eq]

lemma prediksi_c3_eval : prediksi_harian 100000 25 c3_data = .ok c3_hasil := by
  have hq50 : quantileQ [10000, 12000, 11000] (50/100) = 11000 := by
    norm_num [quantileQ, sortQ, insertSorted, List.getD]
  unfold prediksi_harian
  dsimp only
  rw [if_neg (by decide), filter_c3_eval, if_neg (by decide)]
  rw [show ((30 : ℤ) - ((25:ℕ) : ℤ)) = 5 by decide]
  rw [Except.ok.injEq]
  unfold prediksi_core
  dsimp only
  rw [show c3_rutin.map Transaksi.pengeluaran = [10000, 12000, 11000] from rfl, hq50]
  rw [show round_ribuan ((11000:ℚ) * (115/100)) = 13000 by norm_num [round_ribuan, rndHalfEven]]
  norm_num [c3_hasil, simulasiLoop]
  decide

/-- A one-transaction set used to exercise the forecaster. -/
def contoh_data : List Transaksi := [⟨"warung", 10000⟩]

/-- The forecast computed from `contoh_data` with balance `50000` on day
`28`. -/
def contoh_hasil : HasilPrediksi :=
  { sisa_hari := 2
    median_harian := 10000
    estimasi_harian := 12000
    total_pengeluaran_sisa := 24000
    estimasi_saldo_akhir := 26000
    tanggal_list := [28, 29, 30]
    saldo_harian := [50000, 38000, 26000] }

lemma filter_contoh_eval : filter_pengeluaran_rutin contoh_data = contoh_data := by
  have hq : ∀ p : ℚ, quantileQ [10000] p = 10000 := by
    intro p
    norm_num [quantileQ, sortQ, insertSorted, List.getD]
  rw [filter_pengeluaran_rutin, if_neg (by decide)]
  dsimp only
  rw [show contoh_data.map Transaksi.pengeluaran = [10000] from rfl, hq, hq]
  rw [show min ((10000:ℚ) + 15/10 * (10000 - 10000)) 100000 = 10000 by
    rw [min_eq_left (by norm_num)]; norm_num]
  rw [show max ((10000:ℚ) * (5/10)) 5000 = 5000 by rw [max_eq_right (by norm_num)]]
  rw [show List.filter
      (fun t => decide (5000 ≤ t.pengeluaran) && decide (t.pengeluaran ≤ 10000)) contoh_data
      = contoh_data by norm_num [contoh_data, List.filter_cons, decide_eq_true_eq]]
  rw [show contoh_data.map Transaksi.pengeluaran = [10000] from rfl, hq, hq]
  norm_num [contoh_data, List.filter_cons, decide_eq_true_eq]

lemma prediksi_contoh_eval : prediksi_harian 50000 28 contoh_data = .ok contoh_hasil := by
  have hq50 : quantileQ [10000] (50/100) = 10000 := by
    norm_num [quantileQ, sortQ, insertSorted, List.getD]
  unfold prediksi_harian
  dsimp only
  rw [if_neg (by decide), filter_contoh_eval, if_neg (by decide)]
  rw [show ((30 : ℤ) - ((28:ℕ) : ℤ)) = 2 by decide]
  rw [Except.ok.injEq]
  unfold prediksi_core
  dsimp only
  rw [show contoh_data.map Transaksi.pengeluaran = [10000] from rfl, hq50]
  rw [show round_ribuan ((10000:ℚ) * (115/100)) = 12000 by norm_num [round_ribuan, rndHalfEven]]
  norm_num [contoh_hasil, simulasiLoop]
  decide

end ExampleRuns

/-- C1: on every non-empty transaction set the Routine Filter retains
exactly the transactions within `[max(Q1 * 0.5, 5000),
min(Q3 + 1.5 * IQR, 100000)]` and then, of that retained subset, exactly
the transactions within its `[p20, p80]` band: the implementation agrees
with `routineFilterSpec`, the filter as the specification words it. -/
theorem filter_rutin_sesuai_spec (data : List Transaksi) (h : data ≠ []) :
    filter_pengeluaran_rutin data = routineFilterSpec data := by
  cases data with
  | nil => exact absurd rfl h
  | cons a l => rfl

theorem filter_rutin_sesuai_spec_witness :
    c3_data ≠ [] ∧ filter_pengeluaran_rutin c3_data = routineFilterSpec c3_data :=
  ⟨by decide, filter_rutin_sesuai_spec c3_data (by decide)⟩

/-- C9: the Routine Filter maps the empty transaction set to the empty
set immediately (the guard clause of `filter_pengeluaran_rutin`),
computing no percentiles and raising nothing. -/
theorem filter_rutin_kosong : filter_pengeluaran_rutin [] = [] := rfl

/-- C5: the Forecaster always uses `remaining_days = 30 - day_of_month`
(a fixed 30-day period), and when that is `≤ 0` it fails with
`PeriodExhausted`, producing no estimate, trajectory or final balance. -/
theorem prediksi_periode_habis (saldo : ℚ) (hari : ℕ) (data : List Transaksi) :
    ((30 : ℤ) - (hari : ℤ) ≤ 0 →
      prediksi_harian saldo hari data = .error .periodExhausted) ∧
    (∀ r, prediksi_harian saldo hari data = .ok r →
      r.sisa_hari = 30 - (hari : ℤ)) := by
  constructor
  · intro h
    unfold prediksi_harian
    dsimp only
    rw [if_pos h]
  · intro r h
    obtain ⟨h1, h2, rfl⟩ := prediksi_ok_inv h
    rfl

theorem prediksi_periode_habis_witness :
    prediksi_harian 0 30 [] = .error .periodExhausted ∧
    contoh_hasil.sisa_hari = 30 - ((28 : ℕ) : ℤ) :=
  ⟨(prediksi_periode_habis 0 30 []).1 (by decide),
   (prediksi_periode_habis 50000 28 contoh_data).2 contoh_hasil prediksi_contoh_eval⟩

/-- C2: on every successful forecast, the daily estimate is the median
of the routine amounts multiplied by `1.15` and rounded to the nearest
thousand by the deterministic half-to-even rule: it is a multiple of
`1000` within `500` of `median * 1.15`. -/
theorem prediksi_estimasi_pembulatan (saldo : ℚ) (hari : ℕ) (data : List Transaksi)
    (r : HasilPrediksi) (h : prediksi_harian saldo hari data = .ok r) :
    r.median_harian
      = quantileQ ((filter_pengeluaran_rutin data).map Transaksi.pengeluaran) (50/100) ∧
    r.estimasi_harian = round_ribuan (r.median_harian * (115/100)) ∧
    (1000 : ℤ) ∣ r.estimasi_harian ∧
    |r.median_harian * (115/100) - (r.estimasi_harian : ℚ)| ≤ 500 := by
  obtain ⟨h1, h2, rfl⟩ := prediksi_ok_inv h
  exact ⟨rfl, rfl, round_ribuan_dvd _, round_ribuan_close _⟩

theorem prediksi_estimasi_pembulatan_witness :
    contoh_hasil.median_harian
      = quantileQ ((filter_pengeluaran_rutin contoh_data).map Transaksi.pengeluaran) (50/100) ∧
    contoh_hasil.estimasi_harian = round_ribuan (contoh_hasil.median_harian * (115/100)) ∧
    (1000 : ℤ) ∣ contoh_hasil.estimasi_harian ∧
    |contoh_hasil.median_harian * (115/100) - (contoh_hasil.estimasi_harian : ℚ)| ≤ 500 :=
  prediksi_estimasi_pembulatan 50000 28 contoh_data contoh_hasil prediksi_contoh_eval

/-- C3: the end-to-end example: amounts `[10000, 12000, 11000, 15000,
9000]`, balance `100000`, day `25` give `remaining_days = 5`, median
`11000`, daily estimate `13000`, final balance `35000 = 100000 -
13000 * 5`, classified tight (in `[0, 100000)`). -/
theorem prediksi_contoh_menyeluruh :
    prediksi_harian 100000 25 c3_data = .ok c3_hasil ∧
    c3_hasil.sisa_hari = 5 ∧
    c3_hasil.median_harian = 11000 ∧
    c3_hasil.estimasi_harian = 13000 ∧
    c3_hasil.estimasi_saldo_akhir = 100000 - 13000 * 5 ∧
    klasifikasi_saldo c3_hasil.estimasi_saldo_akhir = .tipis ∧
    (0 : ℚ) ≤ c3_hasil.estimasi_saldo_akhir ∧
    c3_hasil.estimasi_saldo_akhir < 100000 := by
  refine ⟨prediksi_c3_eval, rfl, rfl, rfl, by norm_num [c3_hasil], ?_,
    by norm_num [c3_hasil], by norm_num [c3_hasil]⟩
  norm_num [klasifikasi_saldo, c3_hasil]

/-- C7: on every successful forecast with `n = remaining_days > 0`, the
trajectory has exactly `n + 1` entries, the entry at offset `k` is
`balance - estimate * k` (the iterated subtraction equals the closed
form), the final balance is `balance - estimate * n` and is the last
trajectory entry, and the day labels are `day + k`. -/
theorem prediksi_lintasan (saldo : ℚ) (hari : ℕ) (data : List Transaksi)
    (r : HasilPrediksi) (h : prediksi_harian saldo hari data = .ok r) :
    0 < r.sisa_hari ∧
    r.saldo_harian.length = r.sisa_hari.toNat + 1 ∧
    (∀ k, k ≤ r.sisa_hari.toNat →
      r.saldo_harian[k]? = some (saldo - (r.estimasi_harian : ℚ) * k)) ∧
    r.estimasi_saldo_akhir = saldo - (r.estimasi_harian : ℚ) * (r.sisa_hari : ℚ) ∧
    r.saldo_harian[r.sisa_hari.toNat]? = some r.estimasi_saldo_akhir ∧
    (∀ k, k ≤ r.sisa_hari.toNat → r.tanggal_list[k]? = some (hari + k)) := by
  obtain ⟨h1, h2, rfl⟩ := prediksi_ok_inv h
  have hpos : 0 < (30 : ℤ) - (hari : ℤ) := by omega
  simp only [prediksi_core]
  refine ⟨hpos, simulasiLoop_length _ _ _,
    fun k hk => simulasiLoop_getElem _ _ _ _ hk, ?_, ?_, ?_⟩
  · rw [Int.cast_mul]
  · rw [simulasiLoop_getElem _ _ _ _ (le_refl _), Option.some.injEq]
    have hcast : ((((30 : ℤ) - (hari : ℤ)).toNat : ℕ) : ℚ)
        = (Int.cast ((30 : ℤ) - (hari : ℤ)) : ℚ) := by
      rw [← Int.cast_natCast, Int.toNat_of_nonneg (le_of_lt hpos)]
    rw [hcast]
    push_cast
    ring
  · intro k hk
    rw [List.getElem?_map, List.getElem?_range (by omega : k < ((30:ℤ) - (hari:ℤ)).toNat + 1)]
    rfl

theorem prediksi_lintasan_witness :
    0 < contoh_hasil.sisa_hari ∧
    contoh_hasil.saldo_harian.length = contoh_hasil.sisa_hari.toNat + 1 ∧
    contoh_hasil.saldo_harian[2]?
      = some (50000 - (contoh_hasil.estimasi_harian : ℚ) * ((2 : ℕ) : ℚ)) ∧
    contoh_hasil.estimasi_saldo_akhir
      = 50000 - (contoh_hasil.estimasi_harian : ℚ) * (contoh_hasil.sisa_hari : ℚ) ∧
    contoh_hasil.saldo_harian[contoh_hasil.sisa_hari.toNat]?
      = some contoh_hasil.estimasi_saldo_akhir ∧
    contoh_hasil.tanggal_list[2]? = some (28 + 2) := by
  obtain ⟨h1, h2, h3, h4, h5, h6⟩ :=
    prediksi_lintasan 50000 28 contoh_data contoh_hasil prediksi_contoh_eval
  exact ⟨h1, h2, h3 2 (by decide), h4, h5, h6 2 (by decide)⟩

section ParserEval

lemma bersihkan_21500_eval : bersihkan_nominal "-21.500" = .num 21500 := by
  rw [bersihkan_all_digits (show normalisasi "-21.500" = ['2','1','5','0','0'] by decide)
    (by decide) (by decide)]
  rw [show digitsVal ['2','1','5','0','0'] = 21500 by decide]
  norm_num

lemma bersihkan_1250000_eval : bersihkan_nominal "1.250.000,00" = .num 1250000 := by
  have hn : normalisasi "1.250.000,00" = ['1','2','5','0','0','0','0','.','0','0'] := by decide
  rw [bersihkan_nominal, hn]
  unfold pyParseFloat
  rw [show pyStrip ['1','2','5','0','0','0','0','.','0','0']
      = ['1','2','5','0','0','0','0','.','0','0'] by decide]
  dsimp only
  rw [if_neg (by decide), if_neg (by decide)]
  unfold pyParseUnsigned
  rw [show List.map lowerAscii ['1','2','5','0','0','0','0','.','0','0']
      = ['1','2','5','0','0','0','0','.','0','0'] by decide]
  rw [if_neg (by decide), if_neg (by decide)]
  unfold parseDecimal
  rw [show List.dropWhile isDigitC ['1','2','5','0','0','0','0','.','0','0']
      = ['.','0','0'] by decide]
  dsimp only
  rw [if_pos (by decide)]
  rw [show List.dropWhile isDigitC ['0','0'] = ([] : List Char) by decide]
  rw [show List.takeWhile isDigitC ['1','2','5','0','0','0','0','.','0','0']
      = ['1','2','5','0','0','0','0'] by decide]
  rw [show List.takeWhile isDigitC ['0','0'] = ['0','0'] by decide]
  rw [if_pos (by decide), if_neg (by decide)]
  rw [show digitsVal ['1','2','5','0','0','0','0'] = 1250000 by decide]
  rw [show digitsVal ['0','0'] = 0 by decide]
  norm_num

/-- Evaluate a line whose last match normalises to a non-empty string of
digits: the parser emits the stripped line with that numeric value. -/
lemma extract_eval_digits {line : String} {m d : List Char} {v : ℕ}
    (hm : (findMatches line.data).getLast? = some m)
    (hn : normalisasi (String.mk m) = d) (hne : d ≠ [])
    (hdig : ∀ c ∈ d, isDigitC c = true)
    (hv : digitsVal d = v) (hvpos : 0 < v) :
    extract_transaksi_line line = some ⟨stripLine line, (v : ℚ)⟩ := by
  unfold extract_transaksi_line
  rw [hm]
  dsimp only
  rw [bersihkan_all_digits hn hne hdig, hv]
  rw [if_pos]
  · rfl
  · simp only [PyFloat.gtZero, decide_eq_true_eq]
    exact_mod_cast hvpos

lemma extract_21500_eval :
    extract_transaksi_line "-21.500" = some ⟨"-21.500", 21500⟩ := by
  rw [extract_eval_digits (m := ['-','2','1','.','5','0','0'])
    (d := ['2','1','5','0','0']) (v := 21500)
    (by decide) (by decide) (by decide) (by decide) (by decide) (by norm_num)]
  rw [show stripLine "-21.500" = "-21.500" by decide]
  norm_num

end ParserEval

/-- C4 counterexample: the claim's pattern makes the leading `-`
optional, so on the line "-500 beli 700" the rightmost match of the
claimed pattern is " 700" (value `700`), yet the implementation, whose
pattern requires the `-`, emits the transaction with amount `500` from
its rightmost match "-500".  The claim is false at this input. -/
theorem extract_minus_opsional_counterexample :
    extract_transaksi_line "-500 beli 700" = some ⟨"-500 beli 700", 500⟩ ∧
    (findMatchesSpec ("-500 beli 700" : String).data).getLast? = some [' ', '7', '0', '0'] ∧
    PyFloat.pyAbs (bersihkan_nominal (String.mk [' ', '7', '0', '0'])) = .num 700 ∧
    (500 : ℚ) ≠ 700 := by
  refine ⟨?_, by decide, ?_, by norm_num⟩
  · rw [extract_eval_digits (m := ['-','5','0','0']) (d := ['5','0','0']) (v := 500)
      (by decide) (by decide) (by decide) (by decide) (by decide) (by norm_num)]
    rw [show stripLine "-500 beli 700" = "-500 beli 700" by decide]
    norm_num
  · rw [bersihkan_all_digits (show normalisasi (String.mk [' ','7','0','0']) = ['7','0','0']
      by decide) (by decide) (by decide)]
    rw [show digitsVal ['7','0','0'] = 700 by decide]
    simp only [PyFloat.pyAbs]
    rw [abs_of_pos (by norm_num)]
    norm_num

/-- C4 as amended: the pattern's leading `-` is mandatory.  For every
line: with no match of `-\s?[0-9\.\,]+` the parser emits nothing, and
whenever it emits a row, that row's description is the stripped line and
its amount is the absolute value of the normalised last match, which is
positive. -/
theorem extract_baris_match_terakhir (line : String) :
    (findMatches line.data = [] → extract_transaksi_line line = none) ∧
    (∀ t, extract_transaksi_line line = some t →
      ∃ m, (findMatches line.data).getLast? = some m ∧
        t.deskripsi = stripLine line ∧
        PyFloat.pyAbs (bersihkan_nominal (String.mk m)) = .num t.pengeluaran ∧
        0 < t.pengeluaran) := by
  constructor
  · intro h
    unfold extract_transaksi_line
    rw [h]
    rfl
  · intro t h
    obtain ⟨m, q, hm, hb, hq, rfl⟩ := extract_some_inv h
    refine ⟨m, hm, rfl, ?_, hq⟩
    rw [hb]
    simp only [PyFloat.pyAbs]
    rw [abs_of_pos hq]

theorem extract_baris_match_terakhir_witness :
    extract_transaksi_line "halo" = none ∧
    (findMatches ("-21.500" : String).data).getLast? = some ['-','2','1','.','5','0','0'] ∧
    (Transaksi.mk "-21.500" 21500).deskripsi = stripLine "-21.500" ∧
    PyFloat.pyAbs (bersihkan_nominal (String.mk ['-','2','1','.','5','0','0']))
      = .num (Transaksi.mk "-21.500" 21500).pengeluaran ∧
    0 < (Transaksi.mk "-21.500" 21500).pengeluaran := by
  obtain ⟨m, hm, hd, hab, hpos⟩ :=
    (extract_baris_match_terakhir "-21.500").2 ⟨"-21.500", 21500⟩ extract_21500_eval
  have h0 : (findMatches ("-21.500" : String).data).getLast?
      = some ['-','2','1','.','5','0','0'] := by decide
  have hm' : m = ['-','2','1','.','5','0','0'] := Option.some.inj (hm ▸ h0)
  subst hm'
  exact ⟨(extract_baris_match_terakhir "halo").1 (by decide), h0, hd, hab, hpos⟩

/-- C6: normalisation strips `+`, `-` and spaces, removes `.`, turns `,`
into `.` and parses the result: `bersihkan_nominal "-21.500" = 21500.0`,
`bersihkan_nominal "1.250.000,00" = 1250000.0`; a parse failure yields
`0.0`, and a line whose last match normalises to `0.0` yields no
transaction. -/
theorem bersihkan_normalisasi (s : String) :
    bersihkan_nominal "-21.500" = .num 21500 ∧
    bersihkan_nominal "1.250.000,00" = .num 1250000 ∧
    (pyParseFloat (normalisasi s) = none → bersihkan_nominal s = .num 0) ∧
    (∀ (line : String) (m : List Char),
      (findMatches line.data).getLast? = some m →
      bersihkan_nominal (String.mk m) = .num 0 →
      extract_transaksi_line line = none) := by
  refine ⟨bersihkan_21500_eval, bersihkan_1250000_eval, bersihkan_of_parse_fail, ?_⟩
  intro line m h1 h2
  unfold extract_transaksi_line
  rw [h1]
  dsimp only
  rw [h2, if_neg]
  simp [PyFloat.gtZero]

theorem bersihkan_normalisasi_witness :
    bersihkan_nominal "-21.500" = .num 21500 ∧
    bersihkan_nominal "x" = .num 0 ∧
    extract_transaksi_line "-," = none :=
  ⟨(bersihkan_normalisasi "x").1,
   (bersihkan_normalisasi "x").2.2.1 (by decide),
   (bersihkan_normalisasi "x").2.2.2 "-," ['-', ','] (by decide) (by decide)⟩

/-- C8: every transaction the Parser emits, and every member of an
aggregated transaction set, has a strictly positive amount: the Parser
only emits when the normalised value is positive, and the Aggregator
additionally filters out non-positive amounts. -/
theorem transaksi_jumlah_positif :
    (∀ (line : String) (t : Transaksi), extract_transaksi_line line = some t →
      0 < t.pengeluaran) ∧
    (∀ (dokumen : List (List String)) (t : Transaksi), t ∈ pdfs_to_dataframe dokumen →
      0 < t.pengeluaran) := by
  constructor
  · intro line t h
    obtain ⟨m, q, _, _, hq, rfl⟩ := extract_some_inv h
    exact hq
  · intro dokumen t h
    unfold pdfs_to_dataframe at h
    dsimp only at h
    by_cases he : ((dokumen.map extract_transaksi_harian_jago).filter
        (fun df => !df.isEmpty)).isEmpty = true
    · rw [if_pos he] at h
      cases h
    · rw [if_neg he] at h
      exact of_decide_eq_true (List.mem_filter.1 h).2

lemma pdfs_contoh_eval :
    pdfs_to_dataframe [["-21.500"]] = [⟨"-21.500", 21500⟩] := by
  have h1 : extract_transaksi_harian_jago ["-21.500"] = [⟨"-21.500", 21500⟩] := by
    unfold extract_transaksi_harian_jago
    simp [List.filterMap_cons, extract_21500_eval]
  unfold pdfs_to_dataframe
  dsimp only
  rw [show List.map extract_transaksi_harian_jago [["-21.500"]]
      = [[(⟨"-21.500", 21500⟩ : Transaksi)]] by rw [List.map_cons, h1]; rfl]
  rw [if_neg (by decide)]
  norm_num [List.filter_cons, decide_eq_true_eq]

theorem transaksi_jumlah_positif_witness :
    (0 : ℚ) < (Transaksi.mk "-21.500" 21500).pengeluaran ∧
    (0 : ℚ) < (Transaksi.mk "-21.500" 21500).pengeluaran :=
  ⟨transaksi_jumlah_positif.1 "-21.500" ⟨"-21.500", 21500⟩ extract_21500_eval,
   transaksi_jumlah_positif.2 [["-21.500"]] ⟨"-21.500", 21500⟩
     (by rw [pdfs_contoh_eval]; exact List.mem_cons_self _ _)⟩

/-- C10 counterexample: `bersihkan_nominal` is total, but its result is
not always a non-negative number: the input "nan" survives
normalisation and Python `float("nan")` is NaN, for which `>= 0` is
false. -/
theorem bersihkan_nan_counterexample :
    bersihkan_nominal "nan" = .nan ∧
    PyFloat.geZero (bersihkan_nominal "nan") = false := by
  constructor <;> decide

/-- C10 as amended: `bersihkan_nominal` is total and its result is never
a negative value — every sign is stripped by normalisation, so a finite
result is non-negative and negative infinity is impossible (NaN remains
possible, e.g. on "nan") — hence the Parser needs no separate
absolute-value step. -/
theorem bersihkan_tidak_pernah_negatif (s : String) :
    bersihkan_nominal s ≠ .ninf ∧
    (∀ q : ℚ, bersihkan_nominal s = .num q → 0 ≤ q) := by
  rcases bersihkan_cases s with h | h | ⟨q, hq, h⟩ <;> rw [h]
  · exact ⟨by simp, fun q hqq => by cases hqq⟩
  · exact ⟨by simp, fun q hqq => by cases hqq⟩
  · refine ⟨by simp, fun q' hq' => ?_⟩
    injection hq' with he
    rw [← he]
    exact hq

theorem bersihkan_tidak_pernah_negatif_witness :
    bersihkan_nominal "7" ≠ .ninf ∧ (0 : ℚ) ≤ 7 :=
  ⟨(bersihkan_tidak_pernah_negatif "7").1,
   (bersihkan_tidak_pernah_negatif "7").2 7 (by
     rw [bersihkan_all_digits (show normalisasi "7" = ['7'] by decide) (by decide) (by decide)]
     rw [show digitsVal ['7'] = 7 by decide]
     norm_num)⟩
